import Mathlib

/-!
Verification of the 90/10 CSV train/validation splitter
(`datasets/Full datasets/split_csv_folder_90_10.py`).

The script counts the data rows of every CSV file in a folder, computes a
1-based global cutoff index at 90% of the total, locates the file (and the
row within that file) containing the cutoff, splits that single file into a
"before" part and an "at-or-after" part, and assigns every artifact to a
training or a validation partition.

The embedding below models the script's pure core: rows are
`List (List String)` (the output of Python's `csv.reader`), per-file
metadata is `CsvInfo`, and Python's binary64 float division
`(9 * total) / 10` is modelled exactly by `floatRound`, round-to-nearest,
ties-to-even at 53 bits of precision applied to the exact rational
quotient (which is precisely what CPython's `int.__truediv__` computes).
File-system side effects (directory listing, copying, writing) are out of
scope; `main_run` models the decision pipeline of `main` on the list of
(path, parsed rows) pairs it would read.
-/

/-- `CsvInfo` (lines 52-55): per-file metadata recorded after counting.
`path` stands for the `Path` object; `data_line_count` is the number of
data rows (header excluded when `ASSUME_HEADER`). -/
structure CsvInfo where
  path : String
  data_line_count : ℕ
  deriving DecidableEq

/-- A CSV file as `main` sees it: its path and the rows `csv.reader`
yields for its contents. -/
structure CsvFile where
  path : String
  rows : List (List String)
  deriving DecidableEq

/-- `count_data_lines` (lines 66-79): counts the rows of a parsed CSV and
subtracts one for the header when `assume_header` is set and the file has
at least one row. -/
def count_data_lines (rows : List (List String)) (assume_header : Bool) : ℕ :=
  let row_count := rows.length
  if assume_header ∧ 0 < row_count then row_count - 1 else row_count

/-- Round-to-nearest, ties-to-even, onto the integer grid: the rounding
IEEE-754 binary64 arithmetic applies to the scaled significand. -/
def rhe (q : ℚ) : ℤ :=
  let f := ⌊q⌋
  let r := q - (f : ℚ)
  if r < 1 / 2 then f
  else if 1 / 2 < r then f + 1
  else if f % 2 = 0 then f else f + 1

/-- The binary64 value of the rational `q` (normal range; neither overflow
nor subnormals arise for the quantities this program computes): the
significand `q * 2 ^ (52 - e)` is rounded to the nearest integer, ties to
even, where `2 ^ e ≤ |q| < 2 ^ (e + 1)`.  CPython's `int / int` returns
exactly this correctly rounded double. -/
def floatRound (q : ℚ) : ℚ :=
  if q = 0 then 0
  else
    ((rhe (q * 2 ^ ((52 : ℤ) - Int.log 2 |q|)) : ℚ)) * 2 ^ (Int.log 2 |q| - (52 : ℤ))

/-- `compute_cutoff` (lines 82-92).  The module flag `USE_CEIL_FOR_CUTOFF`
is passed as the argument `useCeil`.  Python's `(9 * total) / 10` is float
true division, modelled by `floatRound` applied to the exact rational. -/
def compute_cutoff (total : ℤ) (useCeil : Bool) : ℤ :=
  if total ≤ 0 then 0
  else
    let raw := floatRound (9 * (total : ℚ) / 10)
    if useCeil then ⌈raw⌉ else ⌊raw⌋

/-- The cutoff computation as the specification words it (§4.2): raw is
`(9 × total) / 10` as an exact real number, and the result is its ceiling
or floor according to the rounding policy. -/
def compute_cutoff_spec (total : ℤ) (useCeil : Bool) : ℤ :=
  if total ≤ 0 then 0
  else if useCeil then ⌈9 * (total : ℚ) / 10⌉ else ⌊9 * (total : ℚ) / 10⌋

/-- Total data rows of a list of counted files (line 195). -/
def sumCounts (infos : List CsvInfo) : ℕ :=
  (infos.map CsvInfo.data_line_count).sum

/-- Cumulative data-row count through the first `i` files. -/
def cumCount (infos : List CsvInfo) (i : ℕ) : ℕ :=
  sumCounts (infos.take i)

/-- The loop of `find_cutoff_location` (lines 106-114): walk the remaining
infos keeping the enumeration index `i` and the running total; on the
first file with `running + count ≥ cutoff` return `(i, cutoff - running)`.
If the loop exhausts the list, Python returns
`(len(infos) - 1, infos[-1].data_line_count)`, which raises `IndexError`
on an empty list — modelled as `none`. -/
def find_go (orig : List CsvInfo) (cutoff : ℤ) :
    List CsvInfo → ℕ → ℕ → Option (ℤ × ℤ)
  | [], _, _ =>
      match orig.getLast? with
      | some last => some ((orig.length : ℤ) - 1, (last.data_line_count : ℤ))
      | none => none
  | info :: rest, i, running =>
      if cutoff ≤ (running : ℤ) + (info.data_line_count : ℤ) then
        some ((i : ℤ), cutoff - (running : ℤ))
      else
        find_go orig cutoff rest (i + 1) (running + info.data_line_count)

/-- `find_cutoff_location` (lines 95-114): `(-1, -1)` when `cutoff ≤ 0`,
otherwise the accumulation loop `find_go`. -/
def find_cutoff_location (infos : List CsvInfo) (cutoff : ℤ) : Option (ℤ × ℤ) :=
  if cutoff ≤ 0 then some (-1, -1)
  else find_go infos cutoff infos 0 0

/-- The header extracted by `split_cutoff_file` (lines 135-139): the first
row when `assume_header` holds and the file is non-empty. -/
def headerOf (rows : List (List String)) (assume_header : Bool) :
    Option (List String) :=
  match assume_header, rows with
  | true, h :: _ => some h
  | _, _ => none

/-- The data rows seen by `split_cutoff_file` (lines 135-139): all rows,
minus the first one when `assume_header` holds and the file is non-empty. -/
def dataRows (rows : List (List String)) (assume_header : Bool) :
    List (List String) :=
  match assume_header, rows with
  | true, _ :: rest => rest
  | _, _ => rows

/-- The clamp of `split_cutoff_file` (line 144):
`k = max(1, min(cutoff_line_in_file, n + 1))`. -/
def clampK (n : ℤ) (cutoff_line_in_file : ℤ) : ℤ :=
  max 1 (min cutoff_line_in_file (n + 1))

/-- Result of splitting the cutoff file.  The source writes `before` and
`after` to two files and returns their lengths; the row lists themselves
are kept here so the counts are `before.length` and `after.length`. -/
structure SplitResult where
  header : Option (List String)
  before : List (List String)
  after : List (List String)
  deriving DecidableEq

/-- `split_cutoff_file` (lines 117-160), its pure content: separate header
and data rows, clamp the 1-based cutoff row `k` into `[1, n+1]`, and slice
`before = data_rows[: k-1]`, `after = data_rows[k-1 :]`. -/
def split_cutoff_file (rows : List (List String)) (assume_header : Bool)
    (cutoff_line_in_file : ℤ) : SplitResult :=
  let data_rows := dataRows rows assume_header
  let n : ℤ := data_rows.length
  let k : ℤ := clampK n cutoff_line_in_file
  let idx : ℕ := (max 0 (k - 1)).toNat
  { header := headerOf rows assume_header
    before := data_rows.take idx
    after := data_rows.drop idx }

/-- Python `Path.stem`: the file name without its last suffix.  `main`
only applies it to paths produced by `list_csv_files`, which all end in
`.csv`, so the model strips that suffix. -/
def pathStem (p : String) : String :=
  if p.endsWith (".csv") then p.dropRight 4 else p

/-- Name of the before-cutoff output (line 227). -/
def before_outname (p : String) : String :=
  pathStem p ++ "_before_cutoff.csv"

/-- Name of the at-or-after-cutoff output (line 228). -/
def after_outname (p : String) : String :=
  pathStem p ++ "_at_or_after_cutoff.csv"

/-- The partition bookkeeping of `main` (lines 244-273): the originals
strictly before the cutoff file, then the before-split output, are sent to
training; the originals strictly after the cutoff file, then the
after-split output, are sent to validation.  The lists hold the
transferred names in the order `main` appends them. -/
def partition_assignment (infos : List CsvInfo) (idx : ℕ)
    (bname aname : String) : List String × List String :=
  ((infos.take idx).map CsvInfo.path ++ [bname],
   (infos.drop (idx + 1)).map CsvInfo.path ++ [aname])

/-- The `SystemExit` aborts of `main`: no CSV files (line 186), zero total
data rows (line 205), cutoff located as 0 (line 209).  `locatorIndexError`
models the `IndexError` Python would raise on `infos[-1]` with an empty
list — unreachable from `main` since it aborts earlier on no files. -/
inductive RunError where
  | noCsvFiles
  | zeroRows
  | cutoffZero
  | locatorIndexError
  deriving DecidableEq

/-- Everything `main` derives and reports once it runs to completion. -/
structure PipelineOutput where
  total : ℕ
  cutoff : ℤ
  cutoff_idx : ℕ
  line_in_file : ℤ
  split : SplitResult
  training : List String
  validation : List String
  deriving DecidableEq

/-- The infos `main` builds (lines 189-193): one `CsvInfo` per file, in
the given (sorted) order. -/
def mkInfos (files : List CsvFile) (assume_header : Bool) : List CsvInfo :=
  files.map fun f => ⟨f.path, count_data_lines f.rows assume_header⟩

/-- The decision pipeline of `main` (lines 179-292) on the parsed files,
in source order: abort when there are no files; count; compute the cutoff;
abort when the total is 0; locate the cutoff; abort when the located index
is negative; split the cutoff file; assign the partitions. -/
def main_run (files : List CsvFile) (assume_header : Bool) (useCeil : Bool) :
    Except RunError PipelineOutput :=
  match files with
  | [] => .error .noCsvFiles
  | _ :: _ =>
    let infos := mkInfos files assume_header
    let total_lines := sumCounts infos
    let cutoff := compute_cutoff (total_lines : ℤ) useCeil
    if total_lines = 0 then .error .zeroRows
    else
      match find_cutoff_location infos cutoff with
      | none => .error .locatorIndexError
      | some (idx, line_in_file) =>
        if idx < 0 then .error .cutoffZero
        else
          let i := idx.toNat
          let cutoff_file := files.getD i ⟨"", []⟩
          let sr := split_cutoff_file cutoff_file.rows assume_header line_in_file
          let parts := partition_assignment infos i
            (before_outname cutoff_file.path) (after_outname cutoff_file.path)
          .ok { total := total_lines, cutoff := cutoff, cutoff_idx := i,
                line_in_file := line_in_file, split := sr,
                training := parts.1, validation := parts.2 }

/-!  ### Facts about the binary64 rounding model  -/

lemma rhe_intCast (n : ℤ) : rhe (n : ℚ) = n := by
  simp [rhe, Int.floor_intCast]

lemma abs_rhe_sub (q : ℚ) : |(rhe q : ℚ) - q| ≤ 1 / 2 := by
  have h0 : (⌊q⌋ : ℚ) ≤ q := Int.floor_le q
  have h1 : q < ⌊q⌋ + 1 := Int.lt_floor_add_one q
  simp only [rhe]
  split_ifs with ha hb hc <;>
    (rw [abs_le]; constructor <;> push_cast <;> linarith)

lemma floatRound_of_pos {q : ℚ} (hq : 0 < q) :
    floatRound q =
      (rhe (q * 2 ^ ((52 : ℤ) - Int.log 2 q)) : ℚ) * 2 ^ (Int.log 2 q - (52 : ℤ)) := by
  rw [floatRound, if_neg (ne_of_gt hq), abs_of_pos hq]

lemma abs_floatRound_sub {q : ℚ} (hq : 0 < q) :
    |floatRound q - q| ≤ 2 ^ (Int.log 2 q - 53) := by
  set e : ℤ := Int.log 2 q with he
  have h2 : (2 : ℚ) ^ ((52 : ℤ) - e) * 2 ^ (e - 52) = 1 := by
    rw [← zpow_add₀ (two_ne_zero)]
    norm_num
  set y : ℚ := q * 2 ^ ((52 : ℤ) - e) with hy
  have hqy : y * 2 ^ (e - 52) = q := by
    rw [hy, mul_assoc, h2, mul_one]
  have hkey : floatRound q - q = ((rhe y : ℚ) - y) * 2 ^ (e - 52) := by
    rw [floatRound_of_pos hq, ← he, ← hy, sub_mul, hqy]
  have hpos : (0 : ℚ) < 2 ^ (e - 52) := zpow_pos (by norm_num) _
  rw [hkey, abs_mul, abs_of_pos hpos]
  have hb := abs_rhe_sub y
  have h53 : (1 / 2) * (2 : ℚ) ^ (e - 52) = 2 ^ (e - 53) := by
    have : (2 : ℚ) ^ (e - 53) = 2 ^ (e - 52) * 2 ^ (-1 : ℤ) := by
      rw [← zpow_add₀ (two_ne_zero)]
      ring_nf
    rw [this]
    norm_num
    ring
  calc |(rhe y : ℚ) - y| * 2 ^ (e - 52)
      ≤ (1 / 2) * 2 ^ (e - 52) := by
        exact mul_le_mul_of_nonneg_right hb (le_of_lt hpos)
    _ = 2 ^ (e - 53) := h53

lemma floatRound_close {q : ℚ} (hq : 0 < q) :
    |floatRound q - q| ≤ q * 2 ^ (-53 : ℤ) := by
  have h1 := abs_floatRound_sub hq
  have h2 : (2 : ℚ) ^ (Int.log 2 q - 53) = 2 ^ (Int.log 2 q) * 2 ^ (-53 : ℤ) := by
    rw [← zpow_add₀ (two_ne_zero)]
    ring_nf
  have h3 : (2 : ℚ) ^ (Int.log 2 q) ≤ q := Int.zpow_log_le_self (by norm_num) hq
  have h4 : (0 : ℚ) < 2 ^ (-53 : ℤ) := zpow_pos (by norm_num) _
  calc |floatRound q - q| ≤ 2 ^ (Int.log 2 q - 53) := h1
    _ = 2 ^ (Int.log 2 q) * 2 ^ (-53 : ℤ) := h2
    _ ≤ q * 2 ^ (-53 : ℤ) := mul_le_mul_of_nonneg_right h3 (le_of_lt h4)

lemma floatRound_intCast {m : ℤ} (h0 : 0 < m) (h53 : m < 2 ^ 53) :
    floatRound (m : ℚ) = m := by
  have hq : (0 : ℚ) < (m : ℚ) := by exact_mod_cast h0
  have h1m : (1 : ℚ) ≤ (m : ℚ) := by exact_mod_cast h0
  set e : ℤ := Int.log 2 (m : ℚ) with he
  have he0 : 0 ≤ e := by
    rw [he]
    have := (Int.zpow_le_iff_le_log (b := 2) (by norm_num) hq (x := 0)).mp
    apply this
    simpa using h1m
  have he53 : e < 53 := by
    rw [he]
    apply (Int.lt_zpow_iff_log_lt (b := 2) (by norm_num) hq (x := 53)).mp
    have : ((2 : ℤ) ^ (53 : ℕ) : ℚ) = (2 : ℚ) ^ (53 : ℤ) := by
      norm_num
    calc (m : ℚ) < ((2 : ℤ) ^ (53 : ℕ) : ℚ) := by exact_mod_cast h53
      _ = (2 : ℚ) ^ (53 : ℤ) := this
  set d : ℕ := ((52 : ℤ) - e).toNat with hd
  have hdeq : (d : ℤ) = 52 - e := by
    rw [hd]
    omega
  have hy : (m : ℚ) * 2 ^ ((52 : ℤ) - e) = ((m * 2 ^ d : ℤ) : ℚ) := by
    rw [← hdeq]
    push_cast
    rw [zpow_natCast]
  have h2 : (2 : ℚ) ^ ((52 : ℤ) - e) * 2 ^ (e - 52) = 1 := by
    rw [← zpow_add₀ (two_ne_zero)]
    norm_num
  rw [floatRound_of_pos hq, ← he, hy, rhe_intCast]
  push_cast
  have hpow : (2 : ℚ) ^ (d : ℕ) = (2 : ℚ) ^ ((52 : ℤ) - e) := by
    rw [← hdeq, zpow_natCast]
  rw [hpow, mul_assoc, h2, mul_one]

/-!  ### Facts about `compute_cutoff`  -/

lemma compute_cutoff_nonpos {T : ℤ} (hT : T ≤ 0) (u : Bool) :
    compute_cutoff T u = 0 := by
  rw [compute_cutoff, if_pos hT]

lemma compute_cutoff_bounds (T : ℤ) (hT : 0 ≤ T) (u : Bool) :
    0 ≤ compute_cutoff T u ∧ compute_cutoff T u ≤ T := by
  rcases eq_or_lt_of_le hT with h0 | hpos
  · rw [compute_cutoff, if_pos (le_of_eq h0.symm)]
    omega
  · rw [compute_cutoff, if_neg (not_le.mpr hpos)]
    have hTq : (0 : ℚ) < (T : ℚ) := by exact_mod_cast hpos
    set q : ℚ := 9 * (T : ℚ) / 10 with hq
    have hq0 : 0 < q := by rw [hq]; positivity
    have herr := abs_le.mp (floatRound_close hq0)
    have h53 : (2 : ℚ) ^ (-53 : ℤ) = 1 / 9007199254740992 := by
      norm_num
    rw [h53] at herr
    have hup : floatRound q ≤ (T : ℚ) := by
      have h1 := herr.2
      rw [hq] at h1 ⊢
      linarith
    have hlo : 0 ≤ floatRound q := by
      have h1 := herr.1
      rw [hq] at h1
      linarith
    have hTfloor : ⌊(T : ℚ)⌋ = T := Int.floor_intCast T
    cases u
    · simp only [Bool.false_eq_true, if_neg]
      constructor
      · exact Int.floor_nonneg.mpr hlo
      · calc ⌊floatRound q⌋ ≤ ⌊(T : ℚ)⌋ := Int.floor_le_floor hup
          _ = T := hTfloor
    · simp only [if_pos]
      constructor
      · exact Int.ceil_nonneg hlo
      · exact Int.ceil_le.mpr hup

lemma compute_cutoff_exact_of_le (T : ℤ) (h1 : 1 ≤ T) (h2 : T ≤ 10 ^ 15)
    (u : Bool) : compute_cutoff T u = compute_cutoff_spec T u := by
  have hT0 : ¬ (T ≤ 0) := by omega
  rw [compute_cutoff, compute_cutoff_spec, if_neg hT0, if_neg hT0]
  obtain ⟨m, r, hmr, hr0, hr10⟩ :
      ∃ m r : ℤ, 9 * T = 10 * m + r ∧ 0 ≤ r ∧ r < 10 :=
    ⟨(9 * T) / 10, (9 * T) % 10, by omega, by omega, by omega⟩
  set q : ℚ := 9 * (T : ℚ) / 10 with hq
  have hqm : q = (m : ℚ) + (r : ℚ) / 10 := by
    rw [hq]
    have : (9 : ℚ) * (T : ℚ) = 10 * (m : ℚ) + (r : ℚ) := by exact_mod_cast hmr
    rw [this]
    ring
  have hq0 : 0 < q := by
    rw [hq]
    have hTq : (0 : ℚ) < (T : ℚ) := by exact_mod_cast h1
    positivity
  by_cases hr : r = 0
  · -- the exact quotient is the integer m; the double is exact
    have hqint : q = (m : ℚ) := by rw [hqm, hr]; norm_num
    have hm1 : 0 < m := by omega
    have hm53 : m < 2 ^ 53 := by omega
    have hfr : floatRound ((m : ℤ) : ℚ) = ((m : ℤ) : ℚ) :=
      floatRound_intCast hm1 hm53
    cases u <;>
      simp [hqint, hfr, Int.floor_intCast, Int.ceil_intCast]
  · -- the exact quotient sits at distance ≥ 1/10 from both neighbours,
    -- while the rounding error is at most 1/16 · too small to cross
    have hr1 : 1 ≤ r := by omega
    have hqle : q ≤ 9 * 10 ^ 14 := by
      rw [hq]
      have : (T : ℚ) ≤ 10 ^ 15 := by exact_mod_cast h2
      linarith
    have hlog : Int.log 2 q < 50 := by
      apply (Int.lt_zpow_iff_log_lt (by norm_num) hq0).mp
      have h250 : ((2 : ℕ) : ℚ) ^ (50 : ℤ) = 1125899906842624 := by norm_num
      rw [h250]
      linarith
    have herr2 : |floatRound q - q| ≤ 1 / 16 := by
      have hb := abs_floatRound_sub hq0
      have hmono : (2 : ℚ) ^ (Int.log 2 q - 53) ≤ (2 : ℚ) ^ (-4 : ℤ) :=
        zpow_le_zpow_right₀ (by norm_num) (by omega)
      calc |floatRound q - q| ≤ (2 : ℚ) ^ (Int.log 2 q - 53) := hb
        _ ≤ (2 : ℚ) ^ (-4 : ℤ) := hmono
        _ = 1 / 16 := by norm_num
    have herr3 := abs_le.mp herr2
    have hrQ1 : (1 : ℚ) ≤ (r : ℚ) := by exact_mod_cast hr1
    have hrQ9 : (r : ℚ) ≤ 9 := by exact_mod_cast (by omega : r ≤ 9)
    have hql : (m : ℚ) + 1 / 10 ≤ q := by rw [hqm]; linarith
    have hqh : q ≤ (m : ℚ) + 9 / 10 := by rw [hqm]; linarith
    have hfr_lo : (m : ℚ) < floatRound q := by
      linarith [herr3.1]
    have hfr_hi : floatRound q < (m : ℚ) + 1 := by
      linarith [herr3.2]
    have hfloor : ⌊floatRound q⌋ = m :=
      Int.floor_eq_iff.mpr ⟨le_of_lt hfr_lo, by linarith⟩
    have hceil : ⌈floatRound q⌉ = m + 1 :=
      Int.ceil_eq_iff.mpr ⟨by push_cast; linarith, by push_cast; linarith⟩
    have hfloorq : ⌊q⌋ = m :=
      Int.floor_eq_iff.mpr ⟨by rw [hqm]; linarith, by rw [hqm]; linarith⟩
    have hceilq : ⌈q⌉ = m + 1 :=
      Int.ceil_eq_iff.mpr ⟨by rw [hqm]; push_cast; linarith, by rw [hqm]; push_cast; linarith⟩
    cases u <;> simp [hfloor, hceil, hfloorq, hceilq]

lemma compute_cutoff_one_floor : compute_cutoff 1 false = 0 := by
  have hq0 : (0 : ℚ) < 9 / 10 := by norm_num
  have herr := abs_le.mp (floatRound_close hq0)
  have h53 : (9 : ℚ) / 10 * 2 ^ (-53 : ℤ) = 9 / 90071992547409920 := by
    norm_num
  rw [h53] at herr
  have hfl : ⌊floatRound ((9 : ℚ) / 10)⌋ = 0 := by
    apply Int.floor_eq_iff.mpr
    constructor
    · push_cast
      linarith [herr.1]
    · push_cast
      linarith [herr.2]
  have harg : 9 * ((1 : ℤ) : ℚ) / 10 = 9 / 10 := by norm_num
  simp only [compute_cutoff]
  norm_num [harg, hfl]

lemma floatRound_ce :
    floatRound ((45036000000000009 : ℚ) / 10) = 4503600000000001 := by
  set q : ℚ := (45036000000000009 : ℚ) / 10 with hq
  have hq0 : 0 < q := by rw [hq]; norm_num
  have hfl : ⌊q⌋₊ = 4503600000000000 := by
    refine (Nat.floor_eq_iff (le_of_lt hq0)).mpr ⟨?_, ?_⟩ <;>
      · rw [hq]; push_cast; norm_num
  have hnatlog : Nat.log 2 4503600000000000 = 52 :=
    Nat.log_eq_of_pow_le_of_lt_pow (by norm_num) (by norm_num)
  have hlog : Int.log 2 q = 52 := by
    rw [Int.log_of_one_le_right 2 (by rw [hq]; norm_num : (1 : ℚ) ≤ q), hfl,
      hnatlog]
    norm_num
  have hfloor : ⌊q⌋ = 4503600000000000 :=
    Int.floor_eq_iff.mpr ⟨by rw [hq]; push_cast; norm_num,
      by rw [hq]; push_cast; norm_num⟩
  have hr : q - ((4503600000000000 : ℤ) : ℚ) = 9 / 10 := by
    rw [hq]; push_cast; norm_num
  rw [floatRound_of_pos hq0, hlog]
  norm_num
  simp only [rhe, hfloor]
  rw [hr]
  norm_num

lemma compute_cutoff_ce :
    compute_cutoff 5004000000000001 false = 4503600000000001 := by
  have harg : 9 * ((5004000000000001 : ℤ) : ℚ) / 10
      = (45036000000000009 : ℚ) / 10 := by
    push_cast
    norm_num
  have hfl : ⌊((4503600000000001 : ℤ) : ℚ)⌋ = 4503600000000001 :=
    Int.floor_intCast _
  simp only [compute_cutoff]
  rw [if_neg (by omega : ¬ (5004000000000001 : ℤ) ≤ 0)]
  simp only [harg, floatRound_ce]
  push_cast at hfl
  exact hfl

lemma compute_cutoff_spec_ce :
    compute_cutoff_spec 5004000000000001 false = 4503600000000000 := by
  rw [compute_cutoff_spec, if_neg (by omega : ¬ (5004000000000001 : ℤ) ≤ 0)]
  simp only [Bool.false_eq_true, if_false]
  apply Int.floor_eq_iff.mpr
  constructor <;>
    · push_cast
      norm_num

/-!  ### Facts about `find_cutoff_location`  -/

lemma sumCounts_cons (a : CsvInfo) (l : List CsvInfo) :
    sumCounts (a :: l) = a.data_line_count + sumCounts l := by
  simp [sumCounts]

lemma find_go_cons (orig : List CsvInfo) (cutoff : ℤ) (info : CsvInfo)
    (rest : List CsvInfo) (i running : ℕ) :
    find_go orig cutoff (info :: rest) i running =
      if cutoff ≤ (running : ℤ) + (info.data_line_count : ℤ) then
        some ((i : ℤ), cutoff - (running : ℤ))
      else find_go orig cutoff rest (i + 1) (running + info.data_line_count) :=
  rfl

lemma find_go_mem (orig : List CsvInfo) (cutoff : ℤ) (rest : List CsvInfo) :
    ∀ (i running : ℕ),
      (running : ℤ) < cutoff →
      cutoff ≤ (running : ℤ) + (sumCounts rest : ℤ) →
      ∃ k : ℕ, k < rest.length ∧
        find_go orig cutoff rest i running
          = some (((i + k : ℕ) : ℤ),
              cutoff - ((running + sumCounts (rest.take k) : ℕ) : ℤ)) ∧
        ((running + sumCounts (rest.take k) : ℕ) : ℤ) < cutoff ∧
        cutoff ≤ ((running + sumCounts (rest.take (k + 1)) : ℕ) : ℤ) := by
  induction rest with
  | nil =>
      intro i running hlt hle
      simp [sumCounts] at hle
      omega
  | cons info rest ih =>
      intro i running hlt hle
      by_cases hc : cutoff ≤ (running : ℤ) + (info.data_line_count : ℤ)
      · refine ⟨0, by simp, ?_, ?_, ?_⟩
        · simp [find_go, hc, sumCounts]
        · simpa [sumCounts] using hlt
        · simpa [sumCounts_cons] using hc
      · push_neg at hc
        have hlt' : ((running + info.data_line_count : ℕ) : ℤ) < cutoff := by
          push_cast
          omega
        have hle' : cutoff ≤ ((running + info.data_line_count : ℕ) : ℤ)
            + (sumCounts rest : ℤ) := by
          rw [sumCounts_cons] at hle
          push_cast at hle ⊢
          omega
        obtain ⟨k, hk, heq, hlt2, hle2⟩ :=
          ih (i + 1) (running + info.data_line_count) hlt' hle'
        refine ⟨k + 1, by simpa using Nat.succ_lt_succ hk, ?_, ?_, ?_⟩
        · rw [find_go_cons, if_neg (not_le.mpr hc), heq]
          simp only [List.take_succ_cons, sumCounts_cons, Option.some.injEq,
            Prod.mk.injEq]
          constructor <;> (push_cast; ring)
        · simp only [List.take_succ_cons, sumCounts_cons]
          push_cast at hlt2 ⊢
          linarith
        · simp only [List.take_succ_cons, sumCounts_cons]
          push_cast at hle2 ⊢
          linarith

lemma find_cutoff_location_spec (infos : List CsvInfo) (cutoff : ℤ)
    (h1 : 1 ≤ cutoff) (h2 : cutoff ≤ (sumCounts infos : ℤ)) :
    ∃ i : ℕ, i < infos.length ∧
      find_cutoff_location infos cutoff
        = some ((i : ℤ), cutoff - (cumCount infos i : ℤ)) ∧
      (cumCount infos i : ℤ) < cutoff ∧
      cutoff ≤ (cumCount infos (i + 1) : ℤ) := by
  have h0 : ¬ cutoff ≤ 0 := by omega
  rw [find_cutoff_location, if_neg h0]
  obtain ⟨k, hk, heq, hlt, hle⟩ :=
    find_go_mem infos cutoff infos 0 0 (by exact_mod_cast h1)
      (by simpa using h2)
  exact ⟨k, hk, by simpa [cumCount] using heq,
    by simpa [cumCount] using hlt, by simpa [cumCount] using hle⟩

lemma find_go_exceed (orig : List CsvInfo) (cutoff : ℤ) (rest : List CsvInfo) :
    ∀ (i running : ℕ),
      (running : ℤ) + (sumCounts rest : ℤ) < cutoff →
      find_go orig cutoff rest i running = find_go orig cutoff [] 0 0 := by
  induction rest with
  | nil => intro i running _; rfl
  | cons info rest ih =>
      intro i running h
      rw [sumCounts_cons] at h
      push_cast at h
      have hrest : (0 : ℤ) ≤ (sumCounts rest : ℤ) := Int.natCast_nonneg _
      rw [find_go_cons, if_neg (by omega)]
      apply ih
      push_cast
      omega

lemma find_cutoff_location_exceed (infos : List CsvInfo) (hne : infos ≠ [])
    (cutoff : ℤ) (hgt : (sumCounts infos : ℤ) < cutoff) :
    find_cutoff_location infos cutoff
      = some ((infos.length : ℤ) - 1,
          ((infos.getLastD ⟨"", 0⟩).data_line_count : ℤ)) := by
  have hs : (0 : ℤ) ≤ (sumCounts infos : ℤ) := Int.natCast_nonneg _
  rw [find_cutoff_location, if_neg (by omega),
    find_go_exceed infos cutoff infos 0 0 (by simpa using hgt), find_go,
    List.getLast?_eq_getLast_of_ne_nil hne]
  simp [List.getLastD_eq_getLast?, List.getLast?_eq_getLast_of_ne_nil hne]

/-!  ### Facts about `split_cutoff_file`  -/

lemma split_before_append_after (rows : List (List String))
    (assume_header : Bool) (r : ℤ) :
    (split_cutoff_file rows assume_header r).before
      ++ (split_cutoff_file rows assume_header r).after
      = dataRows rows assume_header := by
  simp [split_cutoff_file]

lemma split_counts_sum (rows : List (List String)) (assume_header : Bool)
    (r : ℤ) :
    (split_cutoff_file rows assume_header r).before.length
      + (split_cutoff_file rows assume_header r).after.length
      = (dataRows rows assume_header).length := by
  simp [split_cutoff_file]
  omega

/-!  ### Cumulative counts  -/

lemma sumCounts_take_map (infos : List CsvInfo) (k : ℕ) :
    sumCounts (infos.take k)
      = ((infos.map CsvInfo.data_line_count).take k).sum := by
  rw [sumCounts, List.map_take]

lemma cumCount_succ (infos : List CsvInfo) (i : ℕ) (h : i < infos.length) :
    cumCount infos (i + 1)
      = cumCount infos i + (infos.get ⟨i, h⟩).data_line_count := by
  have hlen : i < (infos.map CsvInfo.data_line_count).length := by simpa using h
  have hs := List.sum_take_succ (infos.map CsvInfo.data_line_count) i hlen
  rw [cumCount, cumCount, sumCounts_take_map, sumCounts_take_map, hs]
  simp [List.get_eq_getElem]

/-!  ### Facts about `partition_assignment`  -/

lemma partition_fst_mem_iff (infos : List CsvInfo) (idx : ℕ)
    (bname aname p : String) :
    p ∈ (partition_assignment infos idx bname aname).1 ↔
      (∃ j : ℕ, ∃ hj : j < infos.length,
          j < idx ∧ p = (infos.get ⟨j, hj⟩).path) ∨ p = bname := by
  simp only [partition_assignment, List.mem_append, List.mem_map,
    List.mem_singleton]
  constructor
  · rintro (⟨a, ha, rfl⟩ | rfl)
    · rcases List.mem_take_iff_getElem.mp ha with ⟨i, hm, rfl⟩
      exact Or.inl ⟨i, by omega, by omega, by simp [List.get_eq_getElem]⟩
    · exact Or.inr rfl
  · rintro (⟨j, hj, hjidx, rfl⟩ | rfl)
    · left
      refine ⟨infos.get ⟨j, hj⟩, ?_, rfl⟩
      apply List.mem_take_iff_getElem.mpr
      exact ⟨j, by omega, by simp [List.get_eq_getElem]⟩
    · right
      rfl

lemma partition_snd_mem_iff (infos : List CsvInfo) (idx : ℕ)
    (bname aname p : String) :
    p ∈ (partition_assignment infos idx bname aname).2 ↔
      (∃ j : ℕ, ∃ hj : j < infos.length,
          idx < j ∧ p = (infos.get ⟨j, hj⟩).path) ∨ p = aname := by
  simp only [partition_assignment, List.mem_append, List.mem_map,
    List.mem_singleton]
  constructor
  · rintro (⟨a, ha, rfl⟩ | rfl)
    · rcases List.mem_drop_iff_getElem.mp ha with ⟨i, hm, rfl⟩
      exact Or.inl ⟨idx + 1 + i, by omega, by omega, by simp [List.get_eq_getElem]⟩
    · exact Or.inr rfl
  · rintro (⟨j, hj, hjidx, rfl⟩ | rfl)
    · left
      refine ⟨infos.get ⟨j, hj⟩, ?_, rfl⟩
      apply List.mem_drop_iff_getElem.mpr
      refine ⟨j - idx - 1, by omega, ?_⟩
      have hix : idx + 1 + (j - idx - 1) = j := by omega
      simp only [hix, List.get_eq_getElem]
    · right
      rfl

lemma cutoff_path_not_mem_parts (infos : List CsvInfo) (idx : ℕ)
    (hidx : idx < infos.length) (bname aname : String)
    (hnd : (infos.map CsvInfo.path).Nodup)
    (hb : bname ≠ (infos.get ⟨idx, hidx⟩).path)
    (ha : aname ≠ (infos.get ⟨idx, hidx⟩).path) :
    (infos.get ⟨idx, hidx⟩).path ∉ (partition_assignment infos idx bname aname).1
    ∧ (infos.get ⟨idx, hidx⟩).path
        ∉ (partition_assignment infos idx bname aname).2 := by
  have hpath : ∀ (j : ℕ) (hj : j < infos.length),
      (infos.get ⟨idx, hidx⟩).path = (infos.get ⟨j, hj⟩).path → idx = j := by
    intro j hj hpp
    have hjm : j < (infos.map CsvInfo.path).length := by simpa using hj
    have him : idx < (infos.map CsvInfo.path).length := by simpa using hidx
    have hmm : (infos.map CsvInfo.path)[idx] = (infos.map CsvInfo.path)[j] := by
      simpa [List.getElem_map, List.get_eq_getElem] using hpp
    exact (hnd.getElem_inj_iff).mp hmm
  constructor
  · intro hmem
    rcases (partition_fst_mem_iff infos idx bname aname _).mp hmem with
      ⟨j, hj, hjidx, hpp⟩ | hpb
    · have := hpath j hj hpp
      omega
    · exact hb hpb.symm
  · intro hmem
    rcases (partition_snd_mem_iff infos idx bname aname _).mp hmem with
      ⟨j, hj, hjidx, hpp⟩ | hpa
    · have := hpath j hj hpp
      omega
    · exact ha hpa.symm

/-!  ### Facts about `main_run`  -/

lemma main_run_zero_rows (files : List CsvFile) (ah uc : Bool)
    (hne : files ≠ []) (hz : sumCounts (mkInfos files ah) = 0) :
    main_run files ah uc = .error .zeroRows := by
  cases files with
  | nil => exact absurd rfl hne
  | cons f fs =>
      simp only [main_run]
      rw [if_pos hz]

lemma main_run_single_one_row :
    main_run [⟨"a.csv", [["h"], ["x"]]⟩] true false = .error .cutoffZero := by
  have h1 : sumCounts (mkInfos [⟨"a.csv", [["h"], ["x"]]⟩] true) = 1 := by
    rfl
  have hloc : find_cutoff_location (mkInfos [⟨"a.csv", [["h"], ["x"]]⟩] true) 0
      = some (-1, -1) := by
    rfl
  simp only [main_run, h1]
  norm_num [compute_cutoff_one_floor, hloc]

/-!  ### The claims  -/

/-- C1: for every ordered sequence of per-file row counts and every cutoff
with 1 ≤ cutoff ≤ total, `find_cutoff_location` returns the index `i` of
the first file whose cumulative count reaches the cutoff: the cumulative
count through file `i` is ≥ cutoff, the cumulative count through the prior
files is < cutoff, and the returned in-file row is
cutoff − (cumulative count before file `i`). -/
theorem claim_C1 (infos : List CsvInfo) (cutoff : ℤ) (h1 : 1 ≤ cutoff)
    (h2 : cutoff ≤ (sumCounts infos : ℤ)) :
    ∃ i : ℕ, i < infos.length ∧
      find_cutoff_location infos cutoff
        = some ((i : ℤ), cutoff - (cumCount infos i : ℤ)) ∧
      (cumCount infos i : ℤ) < cutoff ∧
      cutoff ≤ (cumCount infos (i + 1) : ℤ) :=
  find_cutoff_location_spec infos cutoff h1 h2

/-- C1 witness: counts [2, 3] with cutoff 4 land in the second file. -/
theorem claim_C1_witness :
    (1 : ℤ) ≤ 4 ∧
    (4 : ℤ) ≤ (sumCounts [⟨"a.csv", 2⟩, ⟨"b.csv", 3⟩] : ℤ) ∧
    (∃ i : ℕ, i < ([⟨"a.csv", 2⟩, ⟨"b.csv", 3⟩] : List CsvInfo).length ∧
      find_cutoff_location [⟨"a.csv", 2⟩, ⟨"b.csv", 3⟩] 4
        = some ((i : ℤ), 4 - (cumCount [⟨"a.csv", 2⟩, ⟨"b.csv", 3⟩] i : ℤ)) ∧
      (cumCount [⟨"a.csv", 2⟩, ⟨"b.csv", 3⟩] i : ℤ) < 4 ∧
      (4 : ℤ) ≤ (cumCount [⟨"a.csv", 2⟩, ⟨"b.csv", 3⟩] (i + 1) : ℤ)) :=
  ⟨by norm_num, by decide, claim_C1 _ 4 (by norm_num) (by decide)⟩

/-- C2: for any file contents, header flag and any in-file cutoff row
(including out-of-range values), the lengths of the two split halves add
up to the number of data rows: the clamp never loses or duplicates a
row. -/
theorem claim_C2 (rows : List (List String)) (assume_header : Bool)
    (in_file_row : ℤ) :
    (split_cutoff_file rows assume_header in_file_row).before.length
      + (split_cutoff_file rows assume_header in_file_row).after.length
      = (dataRows rows assume_header).length :=
  split_counts_sum rows assume_header in_file_row

/-- C3: for any file contents, header flag and any in-file cutoff row,
concatenating the before rows with the after rows reproduces the file's
data rows exactly, in order. -/
theorem claim_C3 (rows : List (List String)) (assume_header : Bool)
    (in_file_row : ℤ) :
    (split_cutoff_file rows assume_header in_file_row).before
      ++ (split_cutoff_file rows assume_header in_file_row).after
      = dataRows rows assume_header :=
  split_before_append_after rows assume_header in_file_row

/-- C4 counterexample: the claim that the code's cutoff equals the exact
rational floor/ceiling of 9·total/10 fails at total = 5004000000000001
with the floor policy: the binary64 value of 9·total/10 =
4503600000000000.9 rounds up across the integer boundary, so the code
returns 4503600000000001 while the exact floor is 4503600000000000. -/
theorem claim_C4_counterexample :
    compute_cutoff 5004000000000001 false = 4503600000000001 ∧
    compute_cutoff_spec 5004000000000001 false = 4503600000000000 ∧
    compute_cutoff 5004000000000001 false
      ≠ compute_cutoff_spec 5004000000000001 false := by
  refine ⟨compute_cutoff_ce, compute_cutoff_spec_ce, ?_⟩
  rw [compute_cutoff_ce, compute_cutoff_spec_ce]
  norm_num

/-- C4 (amended): for every total with 1 ≤ total ≤ 10^15 and both rounding
policies, the code's cutoff — floor/ceiling of the binary64 value of
(9 × total) / 10 — equals the floor/ceiling of the exact rational
9·total/10; in this range the rounding error (at most 2^(log₂(9·total/10) − 53)
≤ 1/16) cannot cross an integer boundary, which sits at distance ≥ 1/10. -/
theorem claim_C4 (total : ℤ) (u : Bool) (h1 : 1 ≤ total)
    (h2 : total ≤ 10 ^ 15) :
    compute_cutoff total u = compute_cutoff_spec total u :=
  compute_cutoff_exact_of_le total h1 h2 u

/-- C4 witness: at total = 101 with the ceiling policy both computations
agree (both give 91). -/
theorem claim_C4_witness :
    (1 : ℤ) ≤ 101 ∧ (101 : ℤ) ≤ 10 ^ 15 ∧
    compute_cutoff 101 true = compute_cutoff_spec 101 true :=
  ⟨by norm_num, by norm_num, claim_C4 101 true (by norm_num) (by norm_num)⟩

/-- C5: for every non-negative total and both rounding policies the cutoff
lies in [0, total], and a zero total yields cutoff 0. -/
theorem claim_C5 (T : ℕ) (u : Bool) :
    0 ≤ compute_cutoff (T : ℤ) u ∧ compute_cutoff (T : ℤ) u ≤ (T : ℤ) ∧
    compute_cutoff 0 u = 0 := by
  obtain ⟨ha, hb⟩ := compute_cutoff_bounds (T : ℤ) (Int.natCast_nonneg T) u
  exact ⟨ha, hb, compute_cutoff_nonpos le_rfl u⟩

/-- C6: the training partition holds exactly the files preceding the
cutoff file plus the before-split output, the validation partition holds
exactly the files following the cutoff file plus the after-split output,
and (when file names are distinct and the derived names are fresh) the
cutoff file's own unsplit name belongs to neither partition. -/
theorem claim_C6 (infos : List CsvInfo) (idx : ℕ) (bname aname p : String)
    (hidx : idx < infos.length)
    (hnd : (infos.map CsvInfo.path).Nodup)
    (hb : bname ≠ (infos.get ⟨idx, hidx⟩).path)
    (ha : aname ≠ (infos.get ⟨idx, hidx⟩).path) :
    (p ∈ (partition_assignment infos idx bname aname).1 ↔
      (∃ j : ℕ, ∃ hj : j < infos.length,
          j < idx ∧ p = (infos.get ⟨j, hj⟩).path) ∨ p = bname) ∧
    (p ∈ (partition_assignment infos idx bname aname).2 ↔
      (∃ j : ℕ, ∃ hj : j < infos.length,
          idx < j ∧ p = (infos.get ⟨j, hj⟩).path) ∨ p = aname) ∧
    (infos.get ⟨idx, hidx⟩).path
      ∉ (partition_assignment infos idx bname aname).1 ∧
    (infos.get ⟨idx, hidx⟩).path
      ∉ (partition_assignment infos idx bname aname).2 := by
  obtain ⟨h1, h2⟩ :=
    cutoff_path_not_mem_parts infos idx hidx bname aname hnd hb ha
  exact ⟨partition_fst_mem_iff infos idx bname aname p,
    partition_snd_mem_iff infos idx bname aname p, h1, h2⟩

/-- C6 witness: three files with the middle one as cutoff file; the first
file's name sits in training, and the cutoff file's own name is in
neither partition. -/
theorem claim_C6_witness :
    (1 < ([⟨"a.csv", 1⟩, ⟨"b.csv", 2⟩, ⟨"c.csv", 3⟩] : List CsvInfo).length) ∧
    (([⟨"a.csv", 1⟩, ⟨"b.csv", 2⟩, ⟨"c.csv", 3⟩] : List CsvInfo).map
      CsvInfo.path).Nodup ∧
    "b_before_cutoff.csv" ≠ "b.csv" ∧
    "b_at_or_after_cutoff.csv" ≠ "b.csv" ∧
    (("a.csv" ∈ (partition_assignment [⟨"a.csv", 1⟩, ⟨"b.csv", 2⟩, ⟨"c.csv", 3⟩]
        1 "b_before_cutoff.csv" "b_at_or_after_cutoff.csv").1 ↔
      (∃ j : ℕ, ∃ hj : j <
          ([⟨"a.csv", 1⟩, ⟨"b.csv", 2⟩, ⟨"c.csv", 3⟩] : List CsvInfo).length,
          j < 1 ∧ "a.csv" = (([⟨"a.csv", 1⟩, ⟨"b.csv", 2⟩, ⟨"c.csv", 3⟩] :
            List CsvInfo).get ⟨j, hj⟩).path) ∨ "a.csv" = "b_before_cutoff.csv") ∧
    ("a.csv" ∈ (partition_assignment [⟨"a.csv", 1⟩, ⟨"b.csv", 2⟩, ⟨"c.csv", 3⟩]
        1 "b_before_cutoff.csv" "b_at_or_after_cutoff.csv").2 ↔
      (∃ j : ℕ, ∃ hj : j <
          ([⟨"a.csv", 1⟩, ⟨"b.csv", 2⟩, ⟨"c.csv", 3⟩] : List CsvInfo).length,
          1 < j ∧ "a.csv" = (([⟨"a.csv", 1⟩, ⟨"b.csv", 2⟩, ⟨"c.csv", 3⟩] :
            List CsvInfo).get ⟨j, hj⟩).path) ∨
        "a.csv" = "b_at_or_after_cutoff.csv") ∧
    "b.csv" ∉ (partition_assignment [⟨"a.csv", 1⟩, ⟨"b.csv", 2⟩, ⟨"c.csv", 3⟩]
        1 "b_before_cutoff.csv" "b_at_or_after_cutoff.csv").1 ∧
    "b.csv" ∉ (partition_assignment [⟨"a.csv", 1⟩, ⟨"b.csv", 2⟩, ⟨"c.csv", 3⟩]
        1 "b_before_cutoff.csv" "b_at_or_after_cutoff.csv").2) :=
  ⟨by decide, by decide, by decide, by decide,
    claim_C6 [⟨"a.csv", 1⟩, ⟨"b.csv", 2⟩, ⟨"c.csv", 3⟩] 1
      "b_before_cutoff.csv" "b_at_or_after_cutoff.csv" "a.csv"
      (by decide) (by decide) (by decide) (by decide)⟩

/-- C7: for a non-empty file list and a cutoff strictly greater than the
total, `find_cutoff_location` falls through its loop and returns the last
file's index with the last file's full data row count. -/
theorem claim_C7 (infos : List CsvInfo) (hne : infos ≠ []) (cutoff : ℤ)
    (hgt : (sumCounts infos : ℤ) < cutoff) :
    find_cutoff_location infos cutoff
      = some ((infos.length : ℤ) - 1,
          ((infos.getLastD ⟨"", 0⟩).data_line_count : ℤ)) :=
  find_cutoff_location_exceed infos hne cutoff hgt

/-- C7 witness: a single 2-row file with cutoff 5 yields index 0 and
in-file row 2. -/
theorem claim_C7_witness :
    (([⟨"a.csv", 2⟩] : List CsvInfo) ≠ []) ∧
    (sumCounts [⟨"a.csv", 2⟩] : ℤ) < 5 ∧
    find_cutoff_location [⟨"a.csv", 2⟩] 5
      = some ((([⟨"a.csv", 2⟩] : List CsvInfo).length : ℤ) - 1,
          ((([⟨"a.csv", 2⟩] : List CsvInfo).getLastD
            ⟨"", 0⟩).data_line_count : ℤ)) :=
  ⟨by decide, by decide, claim_C7 [⟨"a.csv", 2⟩] (by decide) 5 (by decide)⟩

/-- C8: when the files (at least one) hold zero data rows in total, the
run aborts with the zero-rows error — before locating, splitting or
assigning anything: the pipeline returns no output value. -/
theorem claim_C8 (files : List CsvFile) (ah uc : Bool) (hne : files ≠ [])
    (hz : sumCounts (mkInfos files ah) = 0) :
    main_run files ah uc = .error .zeroRows :=
  main_run_zero_rows files ah uc hne hz

/-- C8 witness: one header-only CSV counts zero data rows and aborts. -/
theorem claim_C8_witness :
    (([⟨"a.csv", [["h"]]⟩] : List CsvFile) ≠ []) ∧
    sumCounts (mkInfos [⟨"a.csv", [["h"]]⟩] true) = 0 ∧
    main_run [⟨"a.csv", [["h"]]⟩] true false = .error .zeroRows :=
  ⟨by decide, by decide,
    claim_C8 [⟨"a.csv", [["h"]]⟩] true false (by decide) (by decide)⟩

/-- C9: with the floor policy a total of exactly one data row gives
cutoff 0, the locator returns the (-1, -1) sentinel, and the orchestrator
aborts with the cutoff-zero error even though the total is positive: a
run over one file with a single data row produces no partition. -/
theorem claim_C9 :
    compute_cutoff 1 false = 0 ∧
    sumCounts (mkInfos [⟨"a.csv", [["h"], ["x"]]⟩] true) = 1 ∧
    find_cutoff_location (mkInfos [⟨"a.csv", [["h"], ["x"]]⟩] true)
      (compute_cutoff 1 false) = some (-1, -1) ∧
    main_run [⟨"a.csv", [["h"], ["x"]]⟩] true false = .error .cutoffZero := by
  refine ⟨compute_cutoff_one_floor, by rfl, ?_, main_run_single_one_row⟩
  rw [compute_cutoff_one_floor]
  rfl

/-- C10: under the same hypotheses as C1, the located file holds at least
one data row (a zero-row file is never selected), the in-file row lies in
[1, that file's count], and therefore the downstream clamp of
`split_cutoff_file` leaves it unchanged. -/
theorem claim_C10 (infos : List CsvInfo) (cutoff : ℤ) (h1 : 1 ≤ cutoff)
    (h2 : cutoff ≤ (sumCounts infos : ℤ)) :
    ∃ (i : ℕ) (hi : i < infos.length) (r : ℤ),
      find_cutoff_location infos cutoff = some ((i : ℤ), r) ∧
      1 ≤ (infos.get ⟨i, hi⟩).data_line_count ∧
      1 ≤ r ∧ r ≤ ((infos.get ⟨i, hi⟩).data_line_count : ℤ) ∧
      clampK ((infos.get ⟨i, hi⟩).data_line_count : ℤ) r = r := by
  obtain ⟨i, hi, heq, hlt, hle⟩ := find_cutoff_location_spec infos cutoff h1 h2
  have hc : (cumCount infos (i + 1) : ℤ)
      = (cumCount infos i : ℤ) + ((infos.get ⟨i, hi⟩).data_line_count : ℤ) := by
    exact_mod_cast cumCount_succ infos i hi
  refine ⟨i, hi, cutoff - (cumCount infos i : ℤ), heq, by omega, by omega,
    by omega, ?_⟩
  simp only [clampK]
  omega

/-- C10 witness: counts [2, 3] with cutoff 3 select the second file, whose
count is 3, with in-file row 1; the clamp is the identity there. -/
theorem claim_C10_witness :
    (1 : ℤ) ≤ 3 ∧
    (3 : ℤ) ≤ (sumCounts [⟨"a.csv", 2⟩, ⟨"b.csv", 3⟩] : ℤ) ∧
    (∃ (i : ℕ) (hi : i < ([⟨"a.csv", 2⟩, ⟨"b.csv", 3⟩] : List CsvInfo).length)
        (r : ℤ),
      find_cutoff_location [⟨"a.csv", 2⟩, ⟨"b.csv", 3⟩] 3 = some ((i : ℤ), r) ∧
      1 ≤ (([⟨"a.csv", 2⟩, ⟨"b.csv", 3⟩] : List CsvInfo).get
        ⟨i, hi⟩).data_line_count ∧
      1 ≤ r ∧ r ≤ ((([⟨"a.csv", 2⟩, ⟨"b.csv", 3⟩] : List CsvInfo).get
        ⟨i, hi⟩).data_line_count : ℤ) ∧
      clampK ((([⟨"a.csv", 2⟩, ⟨"b.csv", 3⟩] : List CsvInfo).get
        ⟨i, hi⟩).data_line_count : ℤ) r = r) :=
  ⟨by norm_num, by decide, claim_C10 _ 3 (by norm_num) (by decide)⟩
